import Mathlib

/-!
Verification of the per-connection pipeline and delivery engine of the
hitony gateway server (src/app/ws_server.py, src/app/pipeline.py,
src/app/tools/{registry,router,executor}.py, src/app/session.py).

The Python code is shallowly embedded: pure fragments become Lean
functions; the per-connection mutable `Session` object becomes an explicit
record threaded through handler functions; the event-loop environment
(concurrent flag mutation, websocket send durations, the frame generator)
is abstracted into explicit oracle/schedule parameters; machine integers
are `Nat`/`Int`; wall-clock time is `ℚ`.
-/

set_option maxHeartbeats 1600000

namespace Hitony

/-! ## Session state (src/app/session.py)

Only the fields read or written by the embedded handlers are modelled.
`music_pause_event` is the `asyncio.Event _music_pause_event`
(`true` = set, i.e. not paused); `has_process_task` abstracts
`_process_task is not None and not _process_task.done()`. -/

/-- A Python value as it occurs in tool-argument dicts: either a string
or an integer (the only value shapes the router extractors and the
executor validation ever handle). -/
inductive PyVal where
  | str (s : String)
  | int (n : Int)
deriving DecidableEq, Repr

/-- Python truthiness of a `PyVal` being false: an empty string or zero. -/
def PyVal.falsy : PyVal → Bool
  | .str s => s == ""
  | .int n => n == 0

/-- A Python dict of tool arguments, as an insertion-ordered association
list (keys unique, as in a dict). -/
abbrev Args : Type := List (String × PyVal)

/-- Python dict membership `k in args`. -/
def Args.hasKey (args : Args) (k : String) : Bool :=
  args.any (fun kv => kv.1 == k)

/-- Python dict lookup `args.get(k)`. -/
def Args.lookup (args : Args) (k : String) : Option PyVal :=
  (args.find? (fun kv => kv.1 == k)).map (fun kv => kv.2)

/-- Python dict assignment `args[k] = v` (overwrite in place if the key
exists, append otherwise). -/
def Args.set (args : Args) (k : String) (v : PyVal) : Args :=
  if args.hasKey k then
    args.map (fun kv => if kv.1 == k then (k, v) else kv)
  else args ++ [(k, v)]

/-- The saved partial tool invocation stored in
`session._pending_tool_call` — the dict
`{"missing_param": ..., "tool": ..., "partial_args": ...}` built by the
executor and read back by `_process_and_speak`. The source's dict key
`partial_args` is the field `given_args` here. -/
structure PendingToolCall where
  missing_param : String := ""
  tool : String := ""
  given_args : Args := []
deriving DecidableEq

/-- Per-connection session state (`class Session`, src/app/session.py),
restricted to the fields the verified handlers touch. -/
structure Session where
  listening : Bool := false
  tts_abort : Bool := false
  processing : Bool := false
  opus_packets : List (List Nat) := []
  music_playing : Bool := false
  music_paused : Bool := false
  music_abort : Bool := false
  music_pause_event : Bool := true
  pending_tool_call : Option PendingToolCall := none
  has_process_task : Bool := false
deriving DecidableEq

/-! ## Transport handler: `abort` and `music_ctrl` (src/app/ws_server.py)

`handle_text_message`, the `"abort"` branch (lines 124–134) and the
`"music_ctrl"` branch (lines 136–149). Each branch is embedded as a
function from the session state and the message payload to the new
session state plus the control messages it sends. -/

/-- Result of the `"abort"` branch: the updated session and whether the
`tts_end` abort acknowledgement was sent. -/
structure AbortOutcome where
  session : Session
  sent_tts_end : Bool
deriving DecidableEq

/-- The `"abort"` branch of `handle_text_message`
(src/app/ws_server.py lines 124–134):
if music is playing and the reason is `"wake_word_detected"`, clear the
pause event and set `music_paused` (pause, not stop); otherwise set
`tts_abort` and send a `tts_end` acknowledgement. -/
def handle_abort (s : Session) (reason : String) : AbortOutcome :=
  if s.music_playing && reason == "wake_word_detected" then
    { session := { s with music_pause_event := false, music_paused := true }
      sent_tts_end := false }
  else
    { session := { s with tts_abort := true }
      sent_tts_end := true }

/-- The `"music_ctrl"` branch of `handle_text_message`
(src/app/ws_server.py lines 136–149): pause clears the gate and sets
`music_paused`; resume sets the gate and clears `music_paused`; stop sets
`music_abort` and sets the gate to unblock a paused consumer. -/
def handle_music_ctrl (s : Session) (action : String) : Session :=
  if action == "pause" then
    { s with music_pause_event := false, music_paused := true }
  else if action == "resume" then
    { s with music_pause_event := true, music_paused := false }
  else if action == "stop" then
    { s with music_abort := true, music_pause_event := true }
  else s

/-! ## Pipeline launch guard (src/app/ws_server.py `_launch_pipeline`) -/

/-- Result of `_launch_pipeline`: the updated session and whether a new
pipeline task was created. -/
structure LaunchOutcome where
  session : Session
  launched : Bool
deriving DecidableEq

/-- Embeds `_launch_pipeline` (src/app/ws_server.py lines 155–165): if
`session.processing` is set, log and return without creating a task
(and without queueing anything); otherwise cancel a stale task if any
and create the pipeline task. -/
def launch_pipeline (s : Session) : LaunchOutcome :=
  if s.processing then
    { session := s, launched := false }
  else
    { session := { s with has_process_task := true }, launched := true }

/-! ## Tool registry (src/app/tools/registry.py) -/

/-- Embeds `ToolParam` (src/app/tools/registry.py): declared tool parameter.
The `type` and `default` fields are never read by the executor and are
omitted. -/
structure ToolParam where
  name : String
  description : String := ""
  required : Bool := true
deriving DecidableEq

/-- Embeds `ToolDef` (src/app/tools/registry.py) minus the handler, which is
supplied separately as an oracle (handlers are external-effectful). -/
structure ToolDef where
  name : String
  params : List ToolParam := []
  long_running : Bool := false
deriving DecidableEq

/-- The `data` dict of a `ToolResult` as used by the `ask_user` flow. -/
abbrev ToolData := PendingToolCall

/-- Embeds `ToolResult` (src/app/tools/registry.py): `type` is one of
`"tts" | "music" | "ask_user" | "silent" | "error"`. Only the `data`
keys of the `ask_user` flow are modelled (the music generator is an
external object). -/
structure ToolResult where
  type : String
  text : String := ""
  data : ToolData := {}
deriving DecidableEq

/-- Embeds `get_tool` (src/app/tools/registry.py): dict lookup by name over the
registration list (names are unique). -/
def get_tool (reg : List ToolDef) (name : String) : Option ToolDef :=
  reg.find? (fun t => t.name == name)

/-- The tools actually registered at process start
(src/app/tools/builtin/__init__.py import order; parameter lists and
`long_running` flags copied from each `@register_tool` call; quote
characters inside a few description strings are dropped). -/
def TOOLS : List ToolDef := [
  { name := "youtube.play"
    params := [{ name := "query", description := "search query or URL" }] },
  { name := "player.pause" },
  { name := "player.resume" },
  { name := "player.stop" },
  { name := "player.next" },
  { name := "reminder.set"
    params := [
      { name := "datetime_iso", description := "ISO datetime e.g. 2026-02-15T09:00:00" },
      { name := "message", description := "reminder text" },
      { name := "response", description := "confirmation to speak", required := false }] },
  { name := "reminder.list" },
  { name := "reminder.cancel"
    params := [{ name := "query"
                 description := "keyword to match reminder message, or all to cancel all"
                 required := false }] },
  { name := "alarm.set"
    params := [
      { name := "time", description := "Time in HH:MM format (24-hour), e.g. 07:30 or 19:00" },
      { name := "label", description := "Alarm label/description", required := false },
      { name := "response", description := "Confirmation to speak", required := false }] },
  { name := "alarm.list" },
  { name := "alarm.cancel"
    params := [{ name := "query"
                 description := "Time (HH:MM) or label keyword to match, or all to cancel all"
                 required := false }] },
  { name := "meeting.start"
    params := [{ name := "title", description := "meeting title", required := false }] },
  { name := "meeting.end" },
  { name := "meeting.transcribe", long_running := true },
  { name := "weather.query"
    params := [
      { name := "query", description := "weather query text (e.g. 今天天气 or weather in Tokyo)"
        required := false },
      { name := "city", description := "city name", required := false }]
    long_running := true },
  { name := "timer.set"
    params := [
      { name := "seconds", description := "countdown duration in seconds" },
      { name := "label", description := "timer label (e.g. 5分钟倒计时)", required := false }] },
  { name := "timer.cancel" },
  { name := "web.search"
    params := [{ name := "query", description := "search query text" }]
    long_running := true },
  { name := "note.save"
    params := [{ name := "content", description := "note content to save" }]
    long_running := true },
  { name := "conversation.reset" },
  { name := "briefing.daily", long_running := true },
  { name := "volume.set"
    params := [{ name := "level", description := "Volume level (0=mute, 100=max)" }] },
  { name := "volume.up" },
  { name := "volume.down" }
]

/-! ## Tool executor (src/app/tools/executor.py) -/

/-- Oracle for the registered tool handlers: each call either returns a
`ToolResult` or raises an exception carried as a message string. -/
def Handlers : Type := String → Args → Except String ToolResult

/-- The post-validation part of `execute_tool`: dispatch to the handler.
For a `long_running` tool, `_execute_with_keepalive` cancels the handler
and returns `silent` if the session aborts or the socket closes
(`aborted`); any exception from the handler becomes an `error` result
(src/app/tools/executor.py lines 46–57 and 60–77). -/
def run_handler (tool : ToolDef) (handlers : Handlers) (args : Args)
    (aborted : Bool) : ToolResult :=
  if tool.long_running && aborted then
    { type := "silent", text := "Cancelled" }
  else
    match handlers tool.name args with
    | Except.ok r => r
    | Except.error e => { type := "error", text := "执行失败: " ++ e }

/-- Embeds `execute_tool` (src/app/tools/executor.py lines 20–57):
unknown tool → `error` result; otherwise scan the declared parameters in
order and return `ask_user` for the first required one missing from
`args` (the `data` dict carries the missing parameter name, the tool
name and the partial arguments); otherwise dispatch to the handler.
The `args["session"] = session` injection is not modelled (the session
object is threaded separately). -/
def execute_tool (reg : List ToolDef) (handlers : Handlers) (aborted : Bool)
    (tool_name : String) (args : Args) : ToolResult :=
  match get_tool reg tool_name with
  | none => { type := "error", text := "Unknown tool: " ++ tool_name }
  | some tool =>
    match tool.params.find? (fun p => p.required && !(Args.hasKey args p.name)) with
    | some p =>
      { type := "ask_user"
        text := "请问" ++ (if p.description == "" then p.name else p.description) ++ "是什么？"
        data := { missing_param := p.name, tool := tool_name, given_args := args } }
    | none => run_handler tool handlers args aborted

/-! ## Pending follow-up resolution (src/app/pipeline.py `_process_and_speak`)

Step 1 of `_process_and_speak` (lines 178–185): if a pending tool call
exists, consume it (set it to `None`), fill its missing parameter with
this utterance's text, and resume that tool call directly. -/

/-- The follow-up step of `_process_and_speak`: returns the updated
session and, when a pending call existed, the resolved
`(tool_name, args)` pair with the missing parameter filled by `text`. -/
def resolve_follow_up (s : Session) (text : String) :
    Session × Option (String × Args) :=
  match s.pending_tool_call with
  | some pending =>
    ({ s with pending_tool_call := none },
     some (pending.tool, pending.given_args.set pending.missing_param (.str text)))
  | none => (s, none)

/-! ## Rule router (src/app/tools/router.py)

A rule in `_RULES` is `(compiled regex, tool name, extractor, hint
template)`. The regex-match-plus-extractor pair is embedded as one
opaque function `matcher : String → Option Args` (`none` = the regex did
not match, `some args` = it matched and the extractor produced `args`),
and `hint_template.format(**args)` as the opaque `hint : Args → String`;
the routing loop itself is embedded exactly. -/

/-- One entry of `_RULES` (src/app/tools/router.py). -/
structure Rule where
  matcher : String → Option Args
  tool : String
  hint : Args → String

/-- Python `text.strip()`: drop leading and trailing whitespace
(embedded structurally over the character list so it evaluates by
kernel reduction). -/
def strip (s : String) : String :=
  String.mk (((s.data.dropWhile Char.isWhitespace).reverse.dropWhile
    Char.isWhitespace).reverse)

/-- Embeds `RouteMatch` (src/app/tools/router.py). -/
structure RouteMatch where
  tool : String
  args : Args
  reply_hint : String

/-- The loop body of `route` (src/app/tools/router.py lines 178–191):
try the rules top to bottom; on a regex match run the extractor; if the
extracted args contain a falsy `"query"` value, `continue` to the next
rule; otherwise return the match. -/
def route_rules : List Rule → String → Option RouteMatch
  | [], _ => none
  | r :: rest, text =>
    match r.matcher text with
    | none => route_rules rest text
    | some args =>
      if (args.lookup "query").any PyVal.falsy then route_rules rest text
      else some { tool := r.tool, args := args, reply_hint := r.hint args }

/-- Embeds `route` (src/app/tools/router.py lines 175–191): strip the text,
then run the rule loop. -/
def route (rules : List Rule) (text : String) : Option RouteMatch :=
  route_rules rules (strip text)

/-- Modelled from the spec (for comparison with `route`): a rule is an
effective match when its pattern matches and the extracted arguments do
not contain an empty query field. -/
def rule_effective_match (r : Rule) (text : String) : Bool :=
  match r.matcher text with
  | none => false
  | some args => !((args.lookup "query").any PyVal.falsy)

/-- Modelled from the spec (for comparison with `route`): the router
returns the tool of the first rule, in top-to-bottom order, that is an
effective match; no match yields no tool. -/
def route_spec (rules : List Rule) (text : String) : Option String :=
  (rules.find? (fun r => rule_effective_match r (strip text))).map (fun r => r.tool)

/-! ## Batched delivery streamer (src/app/pipeline.py `_stream_batched`)

The streamer is embedded as a recursion over the batch index that
threads an idealized wall clock (`ℚ`, seconds): `ws.send` of batch `i`
takes `sendDur i ≥ 0` seconds, and `asyncio.sleep d` (only ever called
with `d > 0`) advances the clock by exactly `d`. The model covers the
uninterrupted path: no abort, no closed socket, every send succeeds
(claims about pacing and ordering presuppose the stream is not
interrupted). -/

/-- One audio frame (Opus packet) as its byte values. -/
abbrev Frame := List Nat

/-- Embeds `struct.pack(">H", n)`: 2-byte big-endian length prefix
(the source requires `n < 65536`). -/
def pack_be16 (n : Nat) : List Nat := [n / 256 % 256, n % 256]

/-- The blob construction of `_stream_batched` / `_stream_music`:
`blob = b""` then `blob += struct.pack(">H", len(pkt)) + pkt` per
packet. -/
def encode_batch (batch : List Frame) : List Nat :=
  batch.foldl (fun blob pkt => blob ++ pack_be16 pkt.length ++ pkt) []

/-- Device-side decoding of one batched binary message: repeatedly read
a 2-byte big-endian length then that many payload bytes. -/
def decode_records : (bs : List Nat) → List Frame
  | [] => []
  | [_] => []
  | b0 :: b1 :: rest =>
    rest.take (b0 * 256 + b1) :: decode_records (rest.drop (b0 * 256 + b1))
termination_by bs => bs.length
decreasing_by
  simp only [List.length_cons, List.length_drop]
  omega

/-- The pacing configuration of a streamer: `BATCH_SIZE`,
`PRE_BUFFER_BATCHES` and the batch period in seconds. -/
structure StreamCfg where
  batch_size : Nat
  pre_buffer : Nat
  period : ℚ

/-- Observable timing of one batch: the clock when its `ws.send` started
and how long the loop slept after it. -/
structure BatchEvent where
  sendStart : ℚ
  sleepAmt : ℚ
deriving DecidableEq

/-- Result of a streamer run: the binary messages in send order, the
per-batch timing events, the packet count reported, the clock when the
loop finished, and the recorded start of the paced phase. -/
structure StreamResult where
  msgs : List (List Nat)
  events : List BatchEvent
  sent : Nat
  finalTime : ℚ
  pacingStart : Option ℚ

/-- The loop of `_stream_batched` (src/app/pipeline.py lines 481–548) on
the uninterrupted path, from batch index `i` at clock `now` with pacing
state `ps`: slice the batch, build the blob, send it (advancing the
clock by `sendDur i`); during pre-buffer (`batch_idx < PRE_BUFFER - 1`)
continue immediately; otherwise record `pacing_start` on first entry and,
unless this is the last batch, sleep exactly the remainder up to the
absolute deadline `pacing_start + (paced_idx + 1) * period`
(`paced_idx = batch_idx - pre_buffer + 1`, exact here since
`i + 1 ≥ pre_buffer`). -/
def stream_from (cfg : StreamCfg) (packets : List Frame) (sendDur : Nat → ℚ)
    (numBatches : Nat) : (i : Nat) → (now : ℚ) → (ps : Option ℚ) → StreamResult
  | i, now, ps =>
    if _h : i < numBatches then
      let batch := (packets.drop (i * cfg.batch_size)).take cfg.batch_size
      let blob := encode_batch batch
      let afterSend := now + sendDur i
      if i + 1 < cfg.pre_buffer then
        let r := stream_from cfg packets sendDur numBatches (i + 1) afterSend ps
        { r with msgs := blob :: r.msgs
                 events := { sendStart := now, sleepAmt := 0 } :: r.events
                 sent := batch.length + r.sent }
      else
        let psv := ps.getD afterSend
        let sleepAmt :=
          if i + 1 < numBatches then
            max 0 (psv + (((i + 1 - cfg.pre_buffer : Nat) : ℚ) + 1) * cfg.period - afterSend)
          else 0
        let r := stream_from cfg packets sendDur numBatches (i + 1)
                   (afterSend + sleepAmt) (some psv)
        { r with msgs := blob :: r.msgs
                 events := { sendStart := now, sleepAmt := sleepAmt } :: r.events
                 sent := batch.length + r.sent }
    else
      { msgs := [], events := [], sent := 0, finalTime := now, pacingStart := ps }
termination_by i _ _ => numBatches - i
decreasing_by all_goals omega

/-- Constant `BATCH_SIZE = 10` (src/app/pipeline.py line 471). -/
def BATCH_SIZE : Nat := 10

/-- Constant `PRE_BUFFER_BATCHES = 2` (src/app/pipeline.py line 472). -/
def PRE_BUFFER_BATCHES : Nat := 2

/-- Constant `FRAME_MS = 0.060` — seconds per Opus frame (src/app/pipeline.py
line 473). -/
def FRAME_MS : ℚ := 60 / 1000

/-- Constant `PACING_FACTOR = 0.85` (src/app/pipeline.py line 474). -/
def PACING_FACTOR : ℚ := 85 / 100

/-- Constant `BATCH_PERIOD = BATCH_SIZE * FRAME_MS * PACING_FACTOR`
(src/app/pipeline.py line 475). -/
def BATCH_PERIOD : ℚ := (BATCH_SIZE : ℚ) * FRAME_MS * PACING_FACTOR

/-- Batch count `num_batches = (total + BATCH_SIZE - 1) // BATCH_SIZE`
(src/app/pipeline.py line 494). -/
def num_batches (total B : Nat) : Nat := (total + B - 1) / B

/-- Embeds `_stream_batched` for a spoken response: the loop started at batch 0
with the TTS pacing profile. -/
def stream_batched (packets : List Frame) (sendDur : Nat → ℚ) (t0 : ℚ) :
    StreamResult :=
  stream_from ⟨BATCH_SIZE, PRE_BUFFER_BATCHES, BATCH_PERIOD⟩ packets sendDur
    (num_batches packets.length BATCH_SIZE) 0 t0 none

/-! ## Music frame-consumer loop (src/app/pipeline.py `_stream_music`)

The loop pulls frames from the external generator. The concurrent
transport handler mutates `music_abort` / `_music_pause_event` between
suspension points; these reads are abstracted into a per-iteration
environment `env i`: the flags the loop observes at its top-of-loop
check, at the pause-gate check, and (if it blocked) when
`pause_event.wait()` returned. Pacing and send durations are irrelevant
to the verified properties and are not tracked here; sends succeed. -/

/-- Flags observed by iteration `i` of the music consumer loop. -/
structure MusicEnv where
  /-- Value of `music_abort or ws.closed` at the top-of-loop check. -/
  abort_at_top : Bool := false
  /-- Value of `_music_pause_event.is_set()` at the gate check. -/
  gate_set : Bool := true
  /-- Value of `music_abort or ws.closed` right after the gate wait
  returned (read only when the consumer blocked). -/
  abort_after_wait : Bool := false

/-- Observable events of a music-loop run, in order. -/
inductive MusicEv where
  /-- The consumer blocked on the pause gate before forwarding packet `i`. -/
  | waited (i : Nat)
  /-- A `music_resume` control message was sent. -/
  | resume_msg
  /-- One binary batch message of `frames` packets was sent. -/
  | batch_sent (frames : Nat)
  /-- The `music_end` control message sent by the `finally` block. -/
  | end_msg
deriving DecidableEq, BEq, Repr

/-- Result of a run of the music consumer loop. -/
structure MusicRun where
  trace : List MusicEv
  /-- Number of generator packets appended to a batch before the loop
  ended. -/
  consumed : Nat
deriving DecidableEq, Repr

/-- The `batch.append` / flush-on-full step of `_stream_music`
(lines 389–399): append one packet; when the batch reaches `BATCH_SIZE`
send it as one blob and reset. Returns the events and new batch fill. -/
def music_step_send (batchLen : Nat) : List MusicEv × Nat :=
  if BATCH_SIZE ≤ batchLen + 1 then ([MusicEv.batch_sent (batchLen + 1)], 0)
  else ([], batchLen + 1)

/-- The consumer loop of `_stream_music` (src/app/pipeline.py lines
368–434) from packet index `i` with `batchLen` packets in the current
batch: on abort at the top, exit; if the pause gate is cleared, block on
it, and when the wait returns either exit (stop/close) or send exactly
one `music_resume` and go on with the same packet; append the packet and
flush full batches. When the generator is exhausted, the leftover batch
is flushed unless aborted (`abort_at_end` is the `music_abort or
ws.closed` value at that final check); the `finally` block always sends
`music_end` (socket assumed open, as in the modelled path). -/
def music_loop (env : Nat → MusicEnv) (abort_at_end : Bool) :
    (rest : List Frame) → (i : Nat) → (batchLen : Nat) → MusicRun
  | [], _i, batchLen =>
    { trace := (if 0 < batchLen && !abort_at_end then [MusicEv.batch_sent batchLen] else [])
                ++ [MusicEv.end_msg]
      consumed := 0 }
  | _pkt :: rest, i, batchLen =>
    let e := env i
    if e.abort_at_top then
      { trace := [MusicEv.end_msg], consumed := 0 }
    else if e.gate_set then
      let step := music_step_send batchLen
      let r := music_loop env abort_at_end rest (i + 1) step.2
      { trace := step.1 ++ r.trace, consumed := r.consumed + 1 }
    else if e.abort_after_wait then
      { trace := [MusicEv.waited i, MusicEv.end_msg], consumed := 0 }
    else
      let step := music_step_send batchLen
      let r := music_loop env abort_at_end rest (i + 1) step.2
      { trace := MusicEv.waited i :: MusicEv.resume_msg :: step.1 ++ r.trace
        consumed := r.consumed + 1 }

/-! ## Pipeline orchestrator (src/app/pipeline.py `run_pipeline`)

The per-utterance control flow at phase granularity. External
collaborators (Opus decoder, ASR) are oracles carried by
`PipelineEnv`; the later understand/act/speak phases
(`_process_and_speak`) are abstracted as an arbitrary function, since
the verified claims only constrain whether they run at all. -/

/-- Control messages the gateway can send to the device (only those the
verified code paths emit). -/
inductive CtrlMsg where
  | error_msg (text : String)
  | asr_text (text : String)
  | tts_start (text : String)
  | tts_end
  | music_start (title : String)
  | music_resume
  | music_end
deriving DecidableEq, BEq, Repr

/-- Pipeline phases, per §4.2 of the specification. -/
inductive Phase where
  | decode
  | asr
  | route_phase
  | plan
  | execute (tool : String)
  | synth
  | deliver
deriving DecidableEq, BEq, Repr

/-- Outcomes of the external collaborator calls made by
`_decode_and_asr`, plus the abort/closed flag read between the decode
and ASR phases. -/
structure PipelineEnv where
  /-- Opus decode: an exception message or success (the PCM bytes are
  irrelevant downstream in the model). -/
  decode_result : Except String Unit := Except.ok ()
  /-- Value of `tts_abort or ws.closed` checked after decode. -/
  abort_after_decode : Bool := false
  /-- ASR: an exception message or the transcribed text. -/
  asr_result : Except String String := Except.ok ""

/-- Embeds `_decode_and_asr` (src/app/pipeline.py lines 111–156):
decode failure emits an `error` message and ends the run; then the
abort check; ASR failure emits an `error` message and ends the run; on
ASR success the transcript is sent as `asr_text` (even if empty), and
an empty or whitespace-only transcript ends the run. Returns the
messages sent, the phases that ran, and the transcript handed to the
next phase (`none` = run ends here). -/
def decode_and_asr (env : PipelineEnv) : List CtrlMsg × List Phase × Option String :=
  match env.decode_result with
  | Except.error e => ([CtrlMsg.error_msg ("Opus decode failed: " ++ e)], [Phase.decode], none)
  | Except.ok _ =>
    if env.abort_after_decode then ([], [Phase.decode], none)
    else
      match env.asr_result with
      | Except.error e =>
        ([CtrlMsg.error_msg ("ASR failed: " ++ e)], [Phase.decode, Phase.asr], none)
      | Except.ok text =>
        ([CtrlMsg.asr_text text], [Phase.decode, Phase.asr],
         if text == "" || strip text == "" then none else some text)

/-- Result of one pipeline run. -/
structure RunResult where
  session : Session
  msgs : List CtrlMsg
  phases : List Phase

/-- Abstraction of `_process_and_speak`: given the session and the
transcript, produce the updated session, the messages it sent and the
phases it ran. -/
def ProcessFn : Type := Session → String → Session × List CtrlMsg × List Phase

/-- Embeds `run_pipeline` (src/app/pipeline.py lines 45–73) on the
non-raising path: empty packet buffer → error message and return before
`processing` is ever set; otherwise set `processing`, run
`_decode_and_asr`, stop if it yields no text, else run
`_process_and_speak`; the `finally` clause clears `processing` on the
way out. -/
def run_pipeline (env : PipelineEnv) (process : ProcessFn) (s : Session) : RunResult :=
  if s.opus_packets = [] then
    { session := s, msgs := [CtrlMsg.error_msg "empty audio"], phases := [] }
  else
    let s1 := { s with processing := true }
    let out := decode_and_asr env
    match out.2.2 with
    | none => { session := { s1 with processing := false }, msgs := out.1, phases := out.2.1 }
    | some text =>
      let p := process s1 text
      { session := { p.1 with processing := false }
        msgs := out.1 ++ p.2.1
        phases := out.2.1 ++ p.2.2 }

/-- How a pipeline task terminated, as seen by `_pipeline_wrapper`
(src/app/ws_server.py lines 168–182): ran to completion, raised an
unhandled exception leaving session state `s`, or was cancelled leaving
session state `s`. -/
inductive PipelineTermination where
  | ran
  | raised (s : Session)
  | cancelled (s : Session)

/-- Embeds `_pipeline_wrapper` together with `run_pipeline`'s
`try/finally`: a completed run returns `run_pipeline`'s session; an
exception or cancellation leaves whatever intermediate session state the
body had, after which the `finally` clause and the wrapper's handlers
clear `processing`. -/
def pipeline_wrapper (env : PipelineEnv) (process : ProcessFn)
    (term : PipelineTermination) (s : Session) : Session :=
  match term with
  | PipelineTermination.ran => (run_pipeline env process s).session
  | PipelineTermination.raised s1 => { s1 with processing := false }
  | PipelineTermination.cancelled s1 => { s1 with processing := false }

/-! ## Helper lemmas -/

/-- Decomposition of a successful `List.find?`: the found element
satisfies the predicate and everything before it fails it. -/
theorem find?_decomp {α : Type} (p : α → Bool) :
    ∀ (l : List α) (a : α), l.find? p = some a →
      p a = true ∧ ∃ l1 l2, l = l1 ++ a :: l2 ∧ ∀ x ∈ l1, p x = false := by
  intro l
  induction l with
  | nil => intro a h; simp at h
  | cons b bs ih =>
    intro a h
    by_cases hb : p b = true
    · rw [List.find?_cons_of_pos _ hb] at h
      cases h
      exact ⟨hb, [], bs, rfl, by simp⟩
    · rw [List.find?_cons_of_neg _ (by simpa using hb)] at h
      obtain ⟨hpa, l1, l2, heq, hall⟩ := ih a h
      exact ⟨hpa, b :: l1, l2, by simp [heq], by
        intro x hx
        rcases List.mem_cons.mp hx with hx | hx
        · subst hx; simpa using hb
        · exact hall x hx⟩

/-- The in-place replacement of `Args.set` does not change which keys
are present. -/
theorem any_key_map_set (args : Args) (k0 : String) (v : PyVal) (k : String) :
    (args.map (fun kv => if kv.1 == k0 then (k0, v) else kv)).any
      (fun kv => kv.1 == k) = args.any (fun kv => kv.1 == k) := by
  induction args with
  | nil => rfl
  | cons kv rest ih =>
    simp only [List.map_cons, List.any_cons, ih]
    by_cases hk : (kv.1 == k0) = true
    · have hkv : kv.1 = k0 := by simpa [beq_iff_eq] using hk
      simp [hk, hkv]
    · simp [hk]

/-- Key set of `Args.set`: setting key `k0` makes `k0` present and
leaves presence of every key otherwise unchanged. -/
theorem Args.hasKey_set (args : Args) (k0 : String) (v : PyVal) (k : String) :
    (args.set k0 v).hasKey k = (args.hasKey k || k == k0) := by
  have hsymm : (k0 == k) = (k == k0) := by
    by_cases hx : k0 = k
    · subst hx; rfl
    · have h1 : (k0 == k) = false := by simpa [beq_iff_eq] using hx
      have h2 : (k == k0) = false := by
        simpa [beq_iff_eq] using fun h => hx h.symm
      rw [h1, h2]
  unfold Args.set
  by_cases h : args.hasKey k0 = true
  · rw [if_pos h]
    unfold Args.hasKey
    rw [any_key_map_set]
    by_cases hkk : (k == k0) = true
    · have hk : k = k0 := by simpa [beq_iff_eq] using hkk
      subst hk
      unfold Args.hasKey at h
      simp [h]
    · simp [hkk]
  · rw [if_neg h]
    unfold Args.hasKey
    rw [List.any_append]
    simp [hsymm]

/-! ## C1 — abort semantics -/

/-- C1 counterexample: an `abort` whose reason is an explicit
user-initiated stop (`"user_stop"`) received while music is playing does
NOT result in the music playing flag being false — the handler only sets
`tts_abort` and leaves the music flags untouched. -/
theorem C1_counterexample :
    (handle_abort { music_playing := true } "user_stop").session.music_playing = true ∧
    (handle_abort { music_playing := true } "user_stop").session.music_abort = false := by
  constructor <;> rfl

/-- C1 (amended): an `abort` received while music is playing with reason
`"wake_word_detected"` pauses the music (paused flag set, playing flag
still true, pause gate cleared, no `tts_end` sent); an `abort` with any
other reason — including an explicit user stop — sets `tts_abort` and
leaves all music flags unchanged; a full music stop is performed only by
the `music_ctrl` stop action, which sets the music abort flag and opens
the gate. -/
theorem C1_amended (s : Session) (reason : String) :
    (s.music_playing = true → reason = "wake_word_detected" →
      (handle_abort s reason).session.music_paused = true ∧
      (handle_abort s reason).session.music_playing = true ∧
      (handle_abort s reason).session.music_pause_event = false ∧
      (handle_abort s reason).sent_tts_end = false) ∧
    (reason ≠ "wake_word_detected" →
      (handle_abort s reason).session.tts_abort = true ∧
      (handle_abort s reason).session.music_playing = s.music_playing ∧
      (handle_abort s reason).session.music_paused = s.music_paused ∧
      (handle_abort s reason).session.music_abort = s.music_abort ∧
      (handle_abort s reason).sent_tts_end = true) ∧
    ((handle_music_ctrl s "stop").music_abort = true ∧
      (handle_music_ctrl s "stop").music_pause_event = true) := by
  refine ⟨?_, ?_, ?_, ?_⟩
  · intro h1 h2
    subst h2
    simp [handle_abort, h1]
  · intro h
    have hb : (reason == "wake_word_detected") = false := by
      simpa [beq_iff_eq] using h
    simp [handle_abort, hb]
  · rfl
  · rfl

/-- C1 amended witness: both abort branches and the stop action at
concrete inputs. -/
theorem C1_amended_witness :
    (({ music_playing := true } : Session).music_playing = true ∧
      (handle_abort { music_playing := true } "wake_word_detected").session.music_paused = true ∧
      (handle_abort { music_playing := true } "wake_word_detected").session.music_playing = true ∧
      (handle_abort { music_playing := true } "wake_word_detected").session.music_pause_event = false ∧
      (handle_abort { music_playing := true } "wake_word_detected").sent_tts_end = false) ∧
    ("user_stop" ≠ "wake_word_detected" ∧
      (handle_abort { music_playing := true } "user_stop").session.tts_abort = true) := by
  refine ⟨⟨rfl, (C1_amended { music_playing := true } "wake_word_detected").1 rfl rfl⟩,
          ⟨by decide, ((C1_amended { music_playing := true } "user_stop").2.1 (by decide)).1⟩⟩

/-! ## C3 — unknown tool -/

/-- C3: for every tool name not present in the registry and every
argument map, `execute_tool` returns the `error`-tagged result (and, as
a total Lean function, cannot raise). -/
theorem C3_unknown_tool (name : String) (args : Args) (handlers : Handlers)
    (aborted : Bool) (h : get_tool TOOLS name = none) :
    execute_tool TOOLS handlers aborted name args =
      { type := "error", text := "Unknown tool: " ++ name } := by
  simp [execute_tool, h]

/-- C3 witness: a concrete unregistered tool name. -/
theorem C3_unknown_tool_witness :
    get_tool TOOLS "foo.bar" = none ∧
    execute_tool TOOLS (fun _ _ => Except.ok { type := "silent" }) false "foo.bar" [] =
      { type := "error", text := "Unknown tool: " ++ "foo.bar" } :=
  ⟨by decide, C3_unknown_tool "foo.bar" []
    (fun _ _ => Except.ok { type := "silent" }) false (by decide)⟩

/-! ## C7 — at most one pipeline run -/

/-- C7: when an end-of-utterance signal arrives while the processing
flag is set, `_launch_pipeline` launches nothing and changes nothing
(the request is dropped, not queued). -/
theorem C7_no_second_run (s : Session) (h : s.processing = true) :
    (launch_pipeline s).launched = false ∧ (launch_pipeline s).session = s := by
  simp [launch_pipeline, h]

/-- C7 witness. -/
theorem C7_no_second_run_witness :
    ({ processing := true } : Session).processing = true ∧
    (launch_pipeline { processing := true }).launched = false :=
  ⟨rfl, (C7_no_second_run { processing := true } rfl).1⟩

/-! ## C10 — processing flag cleared on every exit path -/

/-- C10: on every exit path of a pipeline run — normal completion, empty
packet buffer, failed decode or transcription, empty transcript, any
exception, or cancellation — the session's processing flag is false
afterwards (given it was false when the task was launched, which the
launch guard ensures). -/
theorem C10_processing_cleared (env : PipelineEnv) (process : ProcessFn)
    (term : PipelineTermination) (s : Session) (h : s.processing = false) :
    (pipeline_wrapper env process term s).processing = false := by
  cases term with
  | ran =>
    simp only [pipeline_wrapper, run_pipeline]
    by_cases he : s.opus_packets = []
    · simp [he, h]
    · simp only [he, if_false]
      cases (decode_and_asr env).2.2 <;> rfl
  | raised s1 => rfl
  | cancelled s1 => rfl

/-- C10 witness: a normally-completed run on a fresh session. -/
theorem C10_processing_cleared_witness :
    ({ opus_packets := [[1]] } : Session).processing = false ∧
    (pipeline_wrapper {} (fun s _ => (s, [], [])) PipelineTermination.ran
      { opus_packets := [[1]] }).processing = false :=
  ⟨rfl, C10_processing_cleared {} (fun s _ => (s, [], []))
    PipelineTermination.ran { opus_packets := [[1]] } rfl⟩

/-! ## C8 — transcript always emitted; empty transcript ends the run -/

/-- C8: in every pipeline run in which transcription succeeds, the
transcript is sent to the device as an `asr_text` control message even
when it is empty; and when the transcript is empty or whitespace-only,
the run ends right after that message: only the decode and ASR phases
ran and no further message is sent. -/
theorem C8_transcript_emitted (env : PipelineEnv) (process : ProcessFn)
    (s : Session) (t : String)
    (hne : s.opus_packets ≠ [])
    (hdec : env.decode_result = Except.ok ())
    (hab : env.abort_after_decode = false)
    (hasr : env.asr_result = Except.ok t) :
    CtrlMsg.asr_text t ∈ (run_pipeline env process s).msgs ∧
    (strip t = "" →
      (run_pipeline env process s).phases = [Phase.decode, Phase.asr] ∧
      (run_pipeline env process s).msgs = [CtrlMsg.asr_text t]) := by
  have hda : decode_and_asr env =
      ([CtrlMsg.asr_text t], [Phase.decode, Phase.asr],
        if t == "" || strip t == "" then none else some t) := by
    simp [decode_and_asr, hdec, hab, hasr]
  constructor
  · by_cases hc : (t == "" || strip t == "") = true
    · simp [run_pipeline, hne, hda, hc]
    · simp [run_pipeline, hne, hda, hc]
  · intro htrim
    have hc : (t == "" || strip t == "") = true := by simp [htrim]
    simp [run_pipeline, hne, hda, hc]

/-- C8 witness: a successful transcription returning the empty
transcript. -/
theorem C8_transcript_emitted_witness :
    (({ opus_packets := [[1]] } : Session).opus_packets ≠ [] ∧
      ({ asr_result := Except.ok "" } : PipelineEnv).decode_result = Except.ok () ∧
      ({ asr_result := Except.ok "" } : PipelineEnv).abort_after_decode = false ∧
      ({ asr_result := Except.ok "" } : PipelineEnv).asr_result = Except.ok "" ∧
      strip "" = "") ∧
    CtrlMsg.asr_text "" ∈
      (run_pipeline { asr_result := Except.ok "" } (fun s _ => (s, [], []))
        { opus_packets := [[1]] }).msgs ∧
    (run_pipeline { asr_result := Except.ok "" } (fun s _ => (s, [], []))
        { opus_packets := [[1]] }).phases = [Phase.decode, Phase.asr] := by
  have h := C8_transcript_emitted { asr_result := Except.ok "" } (fun s _ => (s, [], []))
    { opus_packets := [[1]] } "" (by simp) rfl rfl rfl
  exact ⟨⟨by simp, rfl, rfl, rfl, by decide⟩, h.1, (h.2 (by decide)).1⟩

/-! ## C2 — missing required parameter → ask_user → follow-up -/

/-- C2 counterexample: `reminder.set` declares two required parameters
(`datetime_iso`, `message`). Calling it with no arguments returns
`ask_user` for `datetime_iso`; re-issuing the call with only
`datetime_iso` filled in does NOT proceed past validation — it returns
`ask_user` again (now for `message`), contradicting the claim that the
re-issued call succeeds. -/
theorem C2_counterexample :
    (execute_tool TOOLS (fun _ _ => Except.ok { type := "silent" }) false
        "reminder.set" []).type = "ask_user" ∧
    (execute_tool TOOLS (fun _ _ => Except.ok { type := "silent" }) false
        "reminder.set" []).data =
      { missing_param := "datetime_iso", tool := "reminder.set", given_args := [] } ∧
    (execute_tool TOOLS (fun _ _ => Except.ok { type := "silent" }) false
        "reminder.set" (Args.set [] "datetime_iso" (PyVal.str "明天九点"))).type
      = "ask_user" ∧
    (execute_tool TOOLS (fun _ _ => Except.ok { type := "silent" }) false
        "reminder.set" (Args.set [] "datetime_iso" (PyVal.str "明天九点"))).data.missing_param
      = "message" := by
  refine ⟨rfl, by decide, rfl, by decide⟩

/-- C2 (amended): for every registered tool and argument map lacking at
least one declared-required parameter, `execute_tool` returns `ask_user`
whose data carries exactly the name of the first missing required
parameter in declared order, the tool name and the partial arguments;
the next utterance consumes the stored pending call (sets it to empty)
and re-issues the call with that parameter filled by the utterance
text; and the re-issued call proceeds past validation provided the
filled parameter was the only missing required one (a tool with several
missing required parameters asks again for the next one). -/
theorem C2_amended (tool_name : String) (args : Args) (handlers : Handlers)
    (aborted : Bool) (tool : ToolDef) (p : ToolParam)
    (hget : get_tool TOOLS tool_name = some tool)
    (hfind : tool.params.find?
      (fun q => q.required && !(Args.hasKey args q.name)) = some p) :
    (execute_tool TOOLS handlers aborted tool_name args).type = "ask_user" ∧
    (execute_tool TOOLS handlers aborted tool_name args).data =
      { missing_param := p.name, tool := tool_name, given_args := args } ∧
    (p.required = true ∧ args.hasKey p.name = false ∧
      ∃ pre post, tool.params = pre ++ p :: post ∧
        ∀ q ∈ pre, q.required = true → args.hasKey q.name = true) ∧
    (∀ (s : Session) (text : String),
      s.pending_tool_call =
          some { missing_param := p.name, tool := tool_name, given_args := args } →
        (resolve_follow_up s text).1.pending_tool_call = none ∧
        (resolve_follow_up s text).2 =
          some (tool_name, args.set p.name (PyVal.str text))) ∧
    ((∀ q ∈ tool.params, q.required = true →
        q.name = p.name ∨ args.hasKey q.name = true) →
      ∀ v, execute_tool TOOLS handlers aborted tool_name (args.set p.name v) =
        run_handler tool handlers (args.set p.name v) aborted) := by
  obtain ⟨hp, pre, post, heq, hall⟩ := find?_decomp _ _ _ hfind
  have hp2 : p.required = true ∧ args.hasKey p.name = false := by
    simpa using hp
  have hpreq : p.required = true := hp2.1
  have hpmiss : args.hasKey p.name = false := hp2.2
  refine ⟨?_, ?_, ?_, ?_, ?_⟩
  · simp [execute_tool, hget, hfind]
  · simp [execute_tool, hget, hfind]
  · exact ⟨hpreq, hpmiss, pre, post, heq, fun q hq hreq => by
      have h1 := hall q hq
      simpa [hreq] using h1⟩
  · intro s text hpend
    simp [resolve_follow_up, hpend]
  · intro honly v
    have hnone : tool.params.find?
        (fun q => q.required && !(Args.hasKey (args.set p.name v) q.name)) = none := by
      rw [List.find?_eq_none]
      intro q hq
      by_cases hreq : q.required = true
      · rcases honly q hq hreq with hname | hkey
        · rw [hname]
          have hs := Args.hasKey_set args p.name v p.name
          simp only [beq_self_eq_true, Bool.or_true] at hs
          simp [hs]
        · have hs := Args.hasKey_set args p.name v q.name
          rw [hkey] at hs
          simp only [Bool.true_or] at hs
          simp [hs]
      · simp [hreq]
    simp [execute_tool, hget, hnone]

/-- C2 amended witness: `web.search` with no arguments asks for
`query`; filling `query` with the follow-up utterance passes
validation. -/
theorem C2_amended_witness :
    (get_tool TOOLS "web.search" = some
        { name := "web.search"
          params := [{ name := "query", description := "search query text" }]
          long_running := true } ∧
      ([{ name := "query", description := "search query text" }] :
          List ToolParam).find?
        (fun q => q.required && !(Args.hasKey ([] : Args) q.name)) =
        some { name := "query", description := "search query text" }) ∧
    (execute_tool TOOLS (fun _ _ => Except.ok { type := "silent" }) false
        "web.search" []).type = "ask_user" ∧
    (execute_tool TOOLS (fun _ _ => Except.ok { type := "silent" }) false
        "web.search" []).data =
      { missing_param := "query", tool := "web.search", given_args := [] } ∧
    execute_tool TOOLS (fun _ _ => Except.ok { type := "silent" }) false
        "web.search" (Args.set [] "query" (PyVal.str "lean theorem prover")) =
      run_handler
        { name := "web.search"
          params := [{ name := "query", description := "search query text" }]
          long_running := true }
        (fun _ _ => Except.ok { type := "silent" })
        (Args.set [] "query" (PyVal.str "lean theorem prover")) false := by
  have h := C2_amended "web.search" [] (fun _ _ => Except.ok { type := "silent" })
    false
    { name := "web.search"
      params := [{ name := "query", description := "search query text" }]
      long_running := true }
    { name := "query", description := "search query text" }
    (by decide) (by decide)
  exact ⟨⟨by decide, by decide⟩, h.1, h.2.1,
    h.2.2.2.2 (by decide) (PyVal.str "lean theorem prover")⟩

/-! ## C4 — router precedence and empty-query fallthrough -/

/-- C4: the router tries its rules top to bottom and returns the tool of
the first rule whose pattern matches, except that a matching rule whose
extracted arguments contain an empty (falsy) `query` field is a
non-match and routing falls through; no matching rule yields no match.
Stated as agreement of the embedded `route` with the spec-side
first-effective-match function `route_spec`. -/
theorem C4_router_precedence (rules : List Rule) (text : String) :
    (route rules text).map RouteMatch.tool = route_spec rules text := by
  unfold route route_spec
  generalize strip text = t
  induction rules with
  | nil => rfl
  | cons r rest ih =>
    simp only [route_rules]
    cases hm : r.matcher t with
    | none =>
      have heff : rule_effective_match r t = false := by
        simp [rule_effective_match, hm]
      rw [List.find?_cons_of_neg _ (by simp [heff])]
      exact ih
    | some args =>
      by_cases hq : ((args.lookup "query").any PyVal.falsy) = true
      · have heff : rule_effective_match r t = false := by
          simp [rule_effective_match, hm, hq]
        rw [List.find?_cons_of_neg _ (by simp [heff])]
        simpa [hq] using ih
      · have heff : rule_effective_match r t = true := by
          simp only [rule_effective_match, hm]
          simpa using hq
        rw [List.find?_cons_of_pos _ (by simp [heff])]
        simp [hq]

/-! ## C9 — music pause / resume / stop -/

/-- Recognizer for the `music_resume` control message in a music-loop
trace. -/
def is_resume : MusicEv → Bool
  | MusicEv.resume_msg => true
  | _ => false

/-- Number of `music_resume` control messages sent during a music-loop
run. -/
def resume_count (r : MusicRun) : Nat := r.trace.countP is_resume

/-- Number of the `n` consecutive consumer iterations starting at index
`i` in which the consumer found the pause gate cleared (i.e. blocked and
was then resumed, given those iterations completed). -/
def pause_steps (env : Nat → MusicEnv) : Nat → Nat → Nat
  | _, 0 => 0
  | i, n + 1 => (if (env i).gate_set then 0 else 1) + pause_steps env (i + 1) n

/-- The batch append/flush step emits no `music_resume` message. -/
theorem music_step_send_no_resume (b : Nat) :
    (music_step_send b).1.countP is_resume = 0 := by
  unfold music_step_send
  split <;> simp [is_resume]

/-- Resume counting: across any run of the music consumer loop, the
number of `music_resume` messages equals the number of completed
iterations that found the gate cleared and were resumed. -/
theorem music_loop_resume_count (env : Nat → MusicEnv) (ae : Bool) :
    ∀ (rest : List Frame) (i batchLen : Nat),
      resume_count (music_loop env ae rest i batchLen) =
        pause_steps env i (music_loop env ae rest i batchLen).consumed := by
  intro rest
  induction rest with
  | nil =>
    intro i b
    unfold music_loop resume_count pause_steps
    split <;> simp [is_resume]
  | cons pkt rest ih =>
    intro i b
    by_cases h1 : (env i).abort_at_top = true
    · simp [music_loop, h1, resume_count, pause_steps, is_resume]
    · by_cases h2 : (env i).gate_set = true
      · have hih := ih (i + 1) (music_step_send b).2
        unfold resume_count at hih ⊢
        simp only [music_loop, h1, h2, Bool.false_eq_true, if_false, if_true,
          List.countP_append]
        rw [music_step_send_no_resume]
        simp only [Nat.zero_add, hih, pause_steps, h2, if_true, Nat.zero_add]
      · by_cases h3 : (env i).abort_after_wait = true
        · simp [music_loop, h1, h2, h3, resume_count, pause_steps, is_resume]
        · have hih := ih (i + 1) (music_step_send b).2
          unfold resume_count at hih ⊢
          simp only [music_loop, h1, h2, h3, Bool.false_eq_true, if_false,
            List.countP_cons, List.countP_append]
          rw [music_step_send_no_resume]
          simp only [is_resume, hih, pause_steps, h2, Bool.false_eq_true, if_false]
          simp

/-- C9: pausing (via the `music_ctrl` pause action, or the wake-word
abort) sets the paused flag and clears the gate the consumer blocks on;
across any run of the consumer loop the number of `music_resume`
messages equals the number of iterations that blocked on the gate and
were resumed (exactly one per resume of a paused consumer); a resumed
iteration continues the loop having emitted exactly one `music_resume`
before its packet; and a stop (or close) observed when the gate wait
returns makes the loop exit at that packet with nothing consumed and no
`music_resume` emitted. -/
theorem C9_music_pause_resume_stop (env : Nat → MusicEnv) (ae : Bool)
    (rest : List Frame) (pkt : Frame) (i batchLen : Nat) (s : Session) :
    ((handle_music_ctrl s "pause").music_paused = true ∧
      (handle_music_ctrl s "pause").music_pause_event = false) ∧
    (resume_count (music_loop env ae rest i batchLen) =
      pause_steps env i (music_loop env ae rest i batchLen).consumed) ∧
    ((env i).abort_at_top = false → (env i).gate_set = false →
      (env i).abort_after_wait = false →
      music_loop env ae (pkt :: rest) i batchLen =
        { trace := MusicEv.waited i :: MusicEv.resume_msg ::
            (music_step_send batchLen).1 ++
            (music_loop env ae rest (i + 1) (music_step_send batchLen).2).trace
          consumed :=
            (music_loop env ae rest (i + 1) (music_step_send batchLen).2).consumed
              + 1 }) ∧
    ((env i).abort_at_top = false → (env i).gate_set = false →
      (env i).abort_after_wait = true →
      music_loop env ae (pkt :: rest) i batchLen =
        { trace := [MusicEv.waited i, MusicEv.end_msg], consumed := 0 }) := by
  refine ⟨⟨rfl, rfl⟩, music_loop_resume_count env ae rest i batchLen, ?_, ?_⟩
  · intro h1 h2 h3
    simp [music_loop, h1, h2, h3]
  · intro h1 h2 h3
    simp [music_loop, h1, h2, h3]

/-- C9 witness: a one-packet stream paused at its first iteration, once
resumed and once stopped. -/
theorem C9_music_pause_resume_stop_witness :
    (((fun _ => { gate_set := false } : Nat → MusicEnv) 0).abort_at_top = false ∧
      ((fun _ => { gate_set := false } : Nat → MusicEnv) 0).gate_set = false ∧
      ((fun _ => { gate_set := false } : Nat → MusicEnv) 0).abort_after_wait = false ∧
      ((fun _ => { gate_set := false, abort_after_wait := true } :
          Nat → MusicEnv) 0).abort_after_wait = true) ∧
    music_loop (fun _ => { gate_set := false }) false [[5]] 0 0 =
      { trace := MusicEv.waited 0 :: MusicEv.resume_msg ::
          (music_step_send 0).1 ++
          (music_loop (fun _ => { gate_set := false }) false [] 1
            (music_step_send 0).2).trace
        consumed :=
          (music_loop (fun _ => { gate_set := false }) false [] 1
            (music_step_send 0).2).consumed + 1 } ∧
    music_loop (fun _ => { gate_set := false, abort_after_wait := true })
        false [[5]] 0 0 =
      { trace := [MusicEv.waited 0, MusicEv.end_msg], consumed := 0 } := by
  refine ⟨⟨rfl, rfl, rfl, rfl⟩, ?_, ?_⟩
  · exact (C9_music_pause_resume_stop (fun _ => { gate_set := false }) false
      [] [5] 0 0 {}).2.2.1 rfl rfl rfl
  · exact (C9_music_pause_resume_stop
      (fun _ => { gate_set := false, abort_after_wait := true }) false
      [] [5] 0 0 {}).2.2.2 rfl rfl rfl

/-! ## C6 — frame ordering and batch framing -/

/-- Accumulator form of the blob construction. -/
theorem encode_batch_acc (batch : List Frame) :
    ∀ acc : List Nat,
      batch.foldl (fun blob pkt => blob ++ pack_be16 pkt.length ++ pkt) acc =
        acc ++ (batch.map (fun pkt => pack_be16 pkt.length ++ pkt)).flatten := by
  induction batch with
  | nil => intro acc; simp
  | cons p rest ih =>
    intro acc
    simp only [List.foldl_cons, List.map_cons, List.flatten_cons]
    rw [ih]
    simp [List.append_assoc]

/-- The blob is the concatenation of the length-prefixed records. -/
theorem encode_batch_eq (batch : List Frame) :
    encode_batch batch =
      (batch.map (fun pkt => pack_be16 pkt.length ++ pkt)).flatten := by
  simpa [encode_batch] using encode_batch_acc batch []

/-- Decoding one length-prefixed record recovers the frame. -/
theorem decode_records_cons (pkt : Frame) (rest : List Nat)
    (h : pkt.length < 65536) :
    decode_records (pack_be16 pkt.length ++ pkt ++ rest) =
      pkt :: decode_records rest := by
  unfold pack_be16
  simp only [List.cons_append, List.nil_append]
  rw [decode_records]
  have hn : pkt.length / 256 % 256 * 256 + pkt.length % 256 = pkt.length := by omega
  rw [hn]
  congr 1
  · exact List.take_left pkt rest
  · congr 1
    exact List.drop_left pkt rest

/-- Decoding an encoded batch recovers the frames in order. -/
theorem decode_encode_batch (batch : List Frame)
    (h : ∀ pkt ∈ batch, pkt.length < 65536) :
    decode_records (encode_batch batch) = batch := by
  induction batch with
  | nil =>
    rw [show encode_batch [] = ([] : List Nat) from rfl]
    rw [decode_records]
  | cons p rest ih =>
    rw [encode_batch_eq]
    simp only [List.map_cons, List.flatten_cons]
    rw [List.append_assoc, ← List.append_assoc (pack_be16 p.length)]
    rw [show pack_be16 p.length ++ p ++
        (rest.map (fun pkt => pack_be16 pkt.length ++ pkt)).flatten =
        pack_be16 p.length ++ p ++ encode_batch rest from by rw [encode_batch_eq]]
    rw [decode_records_cons p _ (h p (List.mem_cons_self p rest))]
    rw [ih (fun q hq => h q (List.mem_cons_of_mem p hq))]

/-- Ceiling-times-batch covers the frame count. -/
theorem le_num_batches_mul (L B : Nat) (hB : 1 ≤ B) :
    L ≤ num_batches L B * B := by
  unfold num_batches
  have h1 := Nat.div_add_mod (L + B - 1) B
  have h2 : (L + B - 1) % B < B := Nat.mod_lt _ (by omega)
  rw [Nat.mul_comm]
  generalize B * ((L + B - 1) / B) = x at h1 ⊢
  omega

/-- A batch index below the batch count starts strictly inside the
frame list. -/
theorem mul_lt_of_lt_num_batches (L B k : Nat) (hB : 1 ≤ B)
    (hk : k < num_batches L B) : k * B < L := by
  have h1 : num_batches L B * B ≤ L + B - 1 := Nat.div_mul_le_self _ _
  have h2 : (k + 1) * B ≤ num_batches L B * B :=
    Nat.mul_le_mul_right _ hk
  rw [Nat.succ_mul] at h2
  generalize num_batches L B * B = y at h1 h2
  generalize k * B = x at h2 ⊢
  omega

/-- The message list of the streamer, decoded message by message,
concatenates to the remaining frames: from batch `i` onwards the
messages carry exactly `packets.drop (i * batch_size)` in order. -/
theorem stream_from_msgs_join (cfg : StreamCfg) (packets : List Frame)
    (sendDur : Nat → ℚ) (hB : 1 ≤ cfg.batch_size)
    (hlen : ∀ pkt ∈ packets, pkt.length < 65536) :
    ∀ (k i : Nat) (now : ℚ) (ps : Option ℚ),
      num_batches packets.length cfg.batch_size - i ≤ k →
      ((stream_from cfg packets sendDur
          (num_batches packets.length cfg.batch_size) i now ps).msgs.map
        decode_records).flatten = packets.drop (i * cfg.batch_size) := by
  intro k
  induction k with
  | zero =>
    intro i now ps hk
    have hi : ¬ i < num_batches packets.length cfg.batch_size := by omega
    rw [stream_from, dif_neg hi]
    have hL : packets.length ≤ i * cfg.batch_size := by
      calc packets.length ≤ num_batches packets.length cfg.batch_size * cfg.batch_size :=
            le_num_batches_mul _ _ hB
        _ ≤ i * cfg.batch_size := Nat.mul_le_mul_right _ (by omega)
    simp [List.drop_eq_nil_of_le hL]
  | succ k ih =>
    intro i now ps hk
    by_cases hi : i < num_batches packets.length cfg.batch_size
    · rw [stream_from, dif_pos hi]
      have hsub : ∀ pkt ∈ (packets.drop (i * cfg.batch_size)).take cfg.batch_size,
          pkt.length < 65536 := by
        intro pkt hp
        exact hlen pkt (((List.take_sublist _ _).trans (List.drop_sublist _ _)).subset hp)
      have hdec := decode_encode_batch _ hsub
      have hih := ih (i + 1) now ps (by omega)
      have hsplit : packets.drop (i * cfg.batch_size) =
          (packets.drop (i * cfg.batch_size)).take cfg.batch_size ++
            packets.drop ((i + 1) * cfg.batch_size) := by
        rw [Nat.succ_mul, ← List.drop_drop]
        exact (List.take_append_drop _ _).symm
      by_cases hpre : i + 1 < cfg.pre_buffer
      · simp only [if_pos hpre, List.map_cons, List.flatten_cons]
        rw [hdec, ih (i + 1) _ _ (by omega)]
        exact hsplit.symm
      · simp only [if_neg hpre, List.map_cons, List.flatten_cons]
        rw [hdec, ih (i + 1) _ _ (by omega)]
        exact hsplit.symm
    · rw [stream_from, dif_neg hi]
      have hL : packets.length ≤ i * cfg.batch_size := by
        calc packets.length ≤ num_batches packets.length cfg.batch_size * cfg.batch_size :=
              le_num_batches_mul _ _ hB
          _ ≤ i * cfg.batch_size := Nat.mul_le_mul_right _ (by omega)
      simp [List.drop_eq_nil_of_le hL]

/-- The streamer sends one message per batch: `num_batches - i` messages
remain from batch `i`. -/
theorem stream_from_msgs_len (cfg : StreamCfg) (packets : List Frame)
    (sendDur : Nat → ℚ) (N : Nat) :
    ∀ (k i : Nat) (now : ℚ) (ps : Option ℚ), N - i ≤ k →
      (stream_from cfg packets sendDur N i now ps).msgs.length = N - i := by
  intro k
  induction k with
  | zero =>
    intro i now ps hk
    have hi : ¬ i < N := by omega
    rw [stream_from, dif_neg hi]
    simp
    omega
  | succ k ih =>
    intro i now ps hk
    by_cases hi : i < N
    · rw [stream_from, dif_pos hi]
      by_cases hpre : i + 1 < cfg.pre_buffer
      · simp only [if_pos hpre, List.length_cons, ih (i + 1) _ _ (by omega)]
        omega
      · simp only [if_neg hpre, List.length_cons, ih (i + 1) _ _ (by omega)]
        omega
    · rw [stream_from, dif_neg hi]
      simp
      omega

/-- Every message of the streamer decodes to at most `batch_size` frames
and at least one frame, and every message except possibly the last
decodes to exactly `batch_size` frames. -/
theorem stream_from_batch_sizes (cfg : StreamCfg) (packets : List Frame)
    (sendDur : Nat → ℚ) (hB : 1 ≤ cfg.batch_size)
    (hlen : ∀ pkt ∈ packets, pkt.length < 65536) :
    ∀ (k i : Nat) (now : ℚ) (ps : Option ℚ),
      num_batches packets.length cfg.batch_size - i ≤ k →
      (∀ m ∈ (stream_from cfg packets sendDur
          (num_batches packets.length cfg.batch_size) i now ps).msgs,
        1 ≤ (decode_records m).length ∧
          (decode_records m).length ≤ cfg.batch_size) ∧
      (∀ m ∈ (stream_from cfg packets sendDur
          (num_batches packets.length cfg.batch_size) i now ps).msgs.dropLast,
        (decode_records m).length = cfg.batch_size) := by
  intro k
  induction k with
  | zero =>
    intro i now ps hk
    have hi : ¬ i < num_batches packets.length cfg.batch_size := by omega
    rw [stream_from, dif_neg hi]
    exact ⟨by simp, by simp⟩
  | succ k ih =>
    intro i now ps hk
    by_cases hi : i < num_batches packets.length cfg.batch_size
    · rw [stream_from, dif_pos hi]
      have hsub : ∀ pkt ∈ (packets.drop (i * cfg.batch_size)).take cfg.batch_size,
          pkt.length < 65536 := by
        intro pkt hp
        exact hlen pkt (((List.take_sublist _ _).trans (List.drop_sublist _ _)).subset hp)
      have hdec := decode_encode_batch _ hsub
      have hlt : i * cfg.batch_size < packets.length :=
        mul_lt_of_lt_num_batches _ _ _ hB hi
      have hslice : ((packets.drop (i * cfg.batch_size)).take cfg.batch_size).length =
          min cfg.batch_size (packets.length - i * cfg.batch_size) := by
        simp [List.length_take, List.length_drop]
      have key : ∀ (now2 : ℚ) (ps2 : Option ℚ),
          (∀ m ∈ encode_batch ((packets.drop (i * cfg.batch_size)).take cfg.batch_size) ::
              (stream_from cfg packets sendDur
                (num_batches packets.length cfg.batch_size) (i + 1) now2 ps2).msgs,
            1 ≤ (decode_records m).length ∧
              (decode_records m).length ≤ cfg.batch_size) ∧
          (∀ m ∈ (encode_batch ((packets.drop (i * cfg.batch_size)).take cfg.batch_size) ::
              (stream_from cfg packets sendDur
                (num_batches packets.length cfg.batch_size) (i + 1) now2 ps2).msgs).dropLast,
            (decode_records m).length = cfg.batch_size) := by
        intro now2 ps2
        have hih := ih (i + 1) now2 ps2 (by omega)
        constructor
        · intro m hm
          rcases List.mem_cons.mp hm with hm | hm
          · subst hm
            rw [hdec, hslice]
            omega
          · exact hih.1 m hm
        · intro m hm
          cases hM : (stream_from cfg packets sendDur
              (num_batches packets.length cfg.batch_size) (i + 1) now2 ps2).msgs with
          | nil =>
            rw [hM] at hm
            simp at hm
          | cons m0 ms =>
            rw [hM] at hm
            rw [List.dropLast_cons₂] at hm
            have hlen2 : (stream_from cfg packets sendDur
                (num_batches packets.length cfg.batch_size) (i + 1) now2 ps2).msgs.length =
                num_batches packets.length cfg.batch_size - (i + 1) :=
              stream_from_msgs_len cfg packets sendDur _ (k + 1) (i + 1) now2 ps2 (by omega)
            have hi2 : i + 1 < num_batches packets.length cfg.batch_size := by
              rw [hM] at hlen2
              simp at hlen2
              omega
            rcases List.mem_cons.mp hm with hm | hm
            · subst hm
              rw [hdec, hslice]
              have hlt2 : (i + 1) * cfg.batch_size < packets.length :=
                mul_lt_of_lt_num_batches _ _ _ hB hi2
              rw [Nat.succ_mul] at hlt2
              omega
            · have := hih.2 m
              rw [hM] at this
              exact this hm
      by_cases hpre : i + 1 < cfg.pre_buffer
      · simp only [if_pos hpre]
        exact key _ _
      · simp only [if_neg hpre]
        exact key _ _
    · rw [stream_from, dif_neg hi]
      exact ⟨by simp, by simp⟩

/-- C6: for every list of frames submitted to the batched streamer (on
the uninterrupted path), the frames appear in the outbound byte stream
in exactly the order submitted: decoding the sent binary messages and
concatenating gives back the submitted frame list; each message is the
concatenation of 2-byte big-endian length-prefixed frame records
(`decode_records` inverts `encode_batch`); every message carries exactly
`BATCH_SIZE` frames except possibly the last, which carries between 1
and `BATCH_SIZE`. -/
theorem C6_frame_ordering (packets : List Frame) (sendDur : Nat → ℚ) (t0 : ℚ)
    (hlen : ∀ pkt ∈ packets, pkt.length < 65536) :
    ((stream_batched packets sendDur t0).msgs.map decode_records).flatten = packets ∧
    (∀ m ∈ (stream_batched packets sendDur t0).msgs.dropLast,
      (decode_records m).length = BATCH_SIZE) ∧
    (∀ m ∈ (stream_batched packets sendDur t0).msgs,
      1 ≤ (decode_records m).length ∧ (decode_records m).length ≤ BATCH_SIZE) := by
  have hB : 1 ≤ (⟨BATCH_SIZE, PRE_BUFFER_BATCHES, BATCH_PERIOD⟩ : StreamCfg).batch_size := by
    decide
  have hjoin := stream_from_msgs_join ⟨BATCH_SIZE, PRE_BUFFER_BATCHES, BATCH_PERIOD⟩
    packets sendDur hB hlen
    (num_batches packets.length BATCH_SIZE) 0 t0 none (Nat.le_refl _)
  have hsizes := stream_from_batch_sizes ⟨BATCH_SIZE, PRE_BUFFER_BATCHES, BATCH_PERIOD⟩
    packets sendDur hB hlen
    (num_batches packets.length BATCH_SIZE) 0 t0 none (Nat.le_refl _)
  refine ⟨?_, ?_, ?_⟩
  · simpa [stream_batched] using hjoin
  · intro m hm
    exact hsizes.2 m (by simpa [stream_batched] using hm)
  · intro m hm
    exact hsizes.1 m (by simpa [stream_batched] using hm)

/-- C6 witness: a concrete three-frame stream. -/
theorem C6_frame_ordering_witness :
    (∀ pkt ∈ [[1, 2], [3], [4, 5, 6]], List.length pkt < 65536) ∧
    ((stream_batched [[1, 2], [3], [4, 5, 6]] (fun _ => 0) 0).msgs.map
      decode_records).flatten = [[1, 2], [3], [4, 5, 6]] := by
  have h := C6_frame_ordering [[1, 2], [3], [4, 5, 6]] (fun _ => 0) 0 (by decide)
  exact ⟨by decide, h.1⟩

/-! ## C5 — pre-buffer and wall-clock pacing -/

/-- During the pre-buffer (batch indices with `batch_idx < pre_buffer - 1`)
the loop `continue`s without sleeping: the recorded sleep amount is 0. -/
theorem stream_from_prebuffer_sleep (cfg : StreamCfg) (packets : List Frame)
    (sendDur : Nat → ℚ) (N : Nat) :
    ∀ (k i : Nat) (now : ℚ) (ps : Option ℚ) (j : Nat) (e : BatchEvent),
      N - i ≤ k → i + j + 1 < cfg.pre_buffer →
      (stream_from cfg packets sendDur N i now ps).events.get? j = some e →
      e.sleepAmt = 0 := by
  intro k
  induction k with
  | zero =>
    intro i now ps j e hk hj hget
    have hi : ¬ i < N := by omega
    rw [stream_from, dif_neg hi] at hget
    simp at hget
  | succ k ih =>
    intro i now ps j e hk hj hget
    by_cases hi : i < N
    · rw [stream_from, dif_pos hi] at hget
      have hpre : i + 1 < cfg.pre_buffer := by omega
      rw [if_pos hpre] at hget
      cases j with
      | zero =>
        simp only [List.get?_cons_zero, Option.some_inj] at hget
        rw [← hget]
      | succ j =>
        simp only [List.get?_cons_succ] at hget
        exact ih (i + 1) _ _ j e (by omega) (by omega) hget
    · rw [stream_from, dif_neg hi] at hget
      simp at hget

/-- Cast companion: with `P ≤ n`, `(↑(n - P) + 1 : ℚ) = ↑(n + 1 - P)`. -/
theorem cast_sub_add_one (n P : Nat) (h : P ≤ n) :
    ((n - P : Nat) : ℚ) + 1 = ((n + 1 - P : Nat) : ℚ) := by
  have : (n - P) + 1 = n + 1 - P := by omega
  rw [← this]
  push_cast
  ring

/-- Paced-phase invariant: entering batch `i ≥ pre_buffer` with the
clock at or past the deadline `pacing_start + (i + 1 - pre_buffer) * period`,
the loop keeps `pacing_start`, every later batch's send starts at or
past its absolute deadline, and the loop finishes at or past
`pacing_start + (N - pre_buffer) * period`. -/
theorem stream_from_paced (cfg : StreamCfg) (packets : List Frame)
    (sendDur : Nat → ℚ) (N : Nat)
    (hd : ∀ n, 0 ≤ sendDur n) :
    ∀ (k i : Nat) (now psv : ℚ),
      N - i ≤ k → cfg.pre_buffer ≤ i → i < N →
      psv + ((i + 1 - cfg.pre_buffer : Nat) : ℚ) * cfg.period ≤ now →
      (stream_from cfg packets sendDur N i now (some psv)).pacingStart = some psv ∧
      psv + ((N - cfg.pre_buffer : Nat) : ℚ) * cfg.period ≤
        (stream_from cfg packets sendDur N i now (some psv)).finalTime ∧
      (∀ j e,
        (stream_from cfg packets sendDur N i now (some psv)).events.get? j = some e →
        psv + ((i + j + 1 - cfg.pre_buffer : Nat) : ℚ) * cfg.period ≤ e.sendStart) := by
  intro k
  induction k with
  | zero => intro i now psv hk hPi hi hnow; omega
  | succ k ih =>
    intro i now psv hk hPi hi hnow
    rw [stream_from, dif_pos hi]
    have hnpre : ¬ (i + 1 < cfg.pre_buffer) := by omega
    rw [if_neg hnpre]
    simp only [Option.getD_some]
    by_cases hlast : i + 1 < N
    · rw [if_pos hlast]
      have hcast : ((i + 1 - cfg.pre_buffer : Nat) : ℚ) + 1 =
          ((i + 1 + 1 - cfg.pre_buffer : Nat) : ℚ) :=
        cast_sub_add_one (i + 1) cfg.pre_buffer (by omega)
      have hstep : psv + ((i + 1 + 1 - cfg.pre_buffer : Nat) : ℚ) * cfg.period ≤
          now + sendDur i +
            max 0 (psv + (((i + 1 - cfg.pre_buffer : Nat) : ℚ) + 1) * cfg.period -
              (now + sendDur i)) := by
        rw [hcast]
        have h1 := le_max_right (0 : ℚ)
          (psv + ((i + 1 + 1 - cfg.pre_buffer : Nat) : ℚ) * cfg.period - (now + sendDur i))
        linarith
      obtain ⟨h1, h2, h3⟩ := ih (i + 1) _ psv (by omega) (by omega) hlast hstep
      refine ⟨h1, h2, ?_⟩
      intro j e hget
      cases j with
      | zero =>
        simp only [List.get?_cons_zero, Option.some_inj] at hget
        rw [← hget]
        simpa using hnow
      | succ j =>
        simp only [List.get?_cons_succ] at hget
        have := h3 j e hget
        have hidx : i + 1 + j + 1 - cfg.pre_buffer = i + (j + 1) + 1 - cfg.pre_buffer := by
          omega
        rw [hidx] at this
        exact this
    · rw [if_neg hlast]
      have hN : i + 1 = N := by omega
      rw [stream_from, dif_neg (show ¬ i + 1 < N by omega)]
      refine ⟨rfl, ?_, ?_⟩
      · have hidx : N - cfg.pre_buffer = i + 1 - cfg.pre_buffer := by omega
        rw [hidx]
        have := hd i
        simp only [add_zero]
        linarith
      · intro j e hget
        cases j with
        | zero =>
          simp only [List.get?_cons_zero, Option.some_inj] at hget
          rw [← hget]
          simpa using hnow
        | succ j =>
          simp only [List.get?_cons_succ, List.get?_nil] at hget
          exact absurd hget (by simp)

/-- Start-of-stream lemma: launched at any batch index inside the
pre-buffer with no pacing state, the loop eventually records a pacing
start `ps`, finishes at or past `ps + (N - pre_buffer) * period`, and
sends every batch of the paced phase at or past its absolute deadline
relative to `ps`. -/
theorem stream_from_start (cfg : StreamCfg) (packets : List Frame)
    (sendDur : Nat → ℚ) (N : Nat)
    (hd : ∀ n, 0 ≤ sendDur n) (hPN : cfg.pre_buffer ≤ N) :
    ∀ (k i : Nat) (now : ℚ), N - i ≤ k → i < cfg.pre_buffer →
      ∃ ps : ℚ,
        (stream_from cfg packets sendDur N i now none).pacingStart = some ps ∧
        ps + ((N - cfg.pre_buffer : Nat) : ℚ) * cfg.period ≤
          (stream_from cfg packets sendDur N i now none).finalTime ∧
        (∀ j e,
          (stream_from cfg packets sendDur N i now none).events.get? j = some e →
          cfg.pre_buffer ≤ i + j →
          ps + ((i + j + 1 - cfg.pre_buffer : Nat) : ℚ) * cfg.period ≤ e.sendStart) := by
  intro k
  induction k with
  | zero =>
    intro i now hk hiP
    have : i < N := lt_of_lt_of_le hiP hPN
    omega
  | succ k ih =>
    intro i now hk hiP
    have hi : i < N := lt_of_lt_of_le hiP hPN
    rw [stream_from, dif_pos hi]
    by_cases hpre : i + 1 < cfg.pre_buffer
    · rw [if_pos hpre]
      obtain ⟨ps, h1, h2, h3⟩ := ih (i + 1) (now + sendDur i) (by omega) hpre
      refine ⟨ps, h1, h2, ?_⟩
      intro j e hget hPij
      cases j with
      | zero => omega
      | succ j =>
        simp only [List.get?_cons_succ] at hget
        have := h3 j e hget (by omega)
        have hidx : i + 1 + j + 1 - cfg.pre_buffer = i + (j + 1) + 1 - cfg.pre_buffer := by
          omega
        rw [hidx] at this
        exact this
    · rw [if_neg hpre]
      have hiP1 : i + 1 = cfg.pre_buffer := by omega
      simp only [Option.getD_none]
      by_cases hlast : i + 1 < N
      · rw [if_pos hlast]
        have h0 : i + 1 - cfg.pre_buffer = 0 := by omega
        have hstep : (now + sendDur i) +
            ((i + 1 + 1 - cfg.pre_buffer : Nat) : ℚ) * cfg.period ≤
            now + sendDur i +
              max 0 ((now + sendDur i) +
                (((i + 1 - cfg.pre_buffer : Nat) : ℚ) + 1) * cfg.period -
                (now + sendDur i)) := by
          have hidx : i + 1 + 1 - cfg.pre_buffer = 1 := by omega
          rw [hidx, h0]
          have h1 := le_max_right (0 : ℚ)
            ((now + sendDur i) + (((0 : Nat) : ℚ) + 1) * cfg.period - (now + sendDur i))
          push_cast at h1 ⊢
          linarith
        obtain ⟨hA1, hA2, hA3⟩ := stream_from_paced cfg packets sendDur N hd k
          (i + 1) _ (now + sendDur i) (by omega) (by omega) hlast hstep
        refine ⟨now + sendDur i, hA1, hA2, ?_⟩
        intro j e hget hPij
        cases j with
        | zero => omega
        | succ j =>
          simp only [List.get?_cons_succ] at hget
          have := hA3 j e hget
          have hidx : i + 1 + j + 1 - cfg.pre_buffer = i + (j + 1) + 1 - cfg.pre_buffer := by
            omega
          rw [hidx] at this
          exact this
      · rw [if_neg hlast]
        rw [stream_from, dif_neg (show ¬ i + 1 < N by omega)]
        refine ⟨now + sendDur i, rfl, ?_, ?_⟩
        · have hidx : N - cfg.pre_buffer = 0 := by omega
          rw [hidx]
          simp
        · intro j e hget hPij
          cases j with
          | zero => omega
          | succ j =>
            simp only [List.get?_cons_succ, List.get?_nil] at hget
            exact absurd hget (by simp)

/-- C5: for every frame list delivered by the batched streamer with
batch size `B`, pre-buffer `P` and batch period `T` on the
uninterrupted path: the first `P` batches are sent with no inter-batch
sleep; every later batch's send starts at or past the absolute
wall-clock deadline `pacing_start + k * T` for its paced index `k`
(the loop sleeps only the remainder up to the deadline); and the total
wall-clock time of the paced portion — final time minus `pacing_start`
— is at least `(F / B - P) * T`. -/
theorem C5_pacing (cfg : StreamCfg) (packets : List Frame) (sendDur : Nat → ℚ)
    (t0 : ℚ) (hB : 1 ≤ cfg.batch_size) (hP : 1 ≤ cfg.pre_buffer)
    (hT : 0 ≤ cfg.period) (hd : ∀ n, 0 ≤ sendDur n)
    (hPN : cfg.pre_buffer ≤ num_batches packets.length cfg.batch_size) :
    (∀ j e, j + 1 < cfg.pre_buffer →
      (stream_from cfg packets sendDur (num_batches packets.length cfg.batch_size)
        0 t0 none).events.get? j = some e →
      e.sleepAmt = 0) ∧
    ∃ ps : ℚ,
      (stream_from cfg packets sendDur (num_batches packets.length cfg.batch_size)
        0 t0 none).pacingStart = some ps ∧
      (∀ j e,
        (stream_from cfg packets sendDur (num_batches packets.length cfg.batch_size)
          0 t0 none).events.get? j = some e →
        cfg.pre_buffer ≤ j →
        ps + ((j + 1 - cfg.pre_buffer : Nat) : ℚ) * cfg.period ≤ e.sendStart) ∧
      ps + ((packets.length / cfg.batch_size - cfg.pre_buffer : Nat) : ℚ) *
          cfg.period ≤
        (stream_from cfg packets sendDur (num_batches packets.length cfg.batch_size)
          0 t0 none).finalTime := by
  constructor
  · intro j e hj hget
    exact stream_from_prebuffer_sleep cfg packets sendDur _
      (num_batches packets.length cfg.batch_size) 0 t0 none j e
      (Nat.le_refl _) (by omega) hget
  · obtain ⟨ps, h1, h2, h3⟩ := stream_from_start cfg packets sendDur
      (num_batches packets.length cfg.batch_size) hd hPN
      (num_batches packets.length cfg.batch_size) 0 t0 (Nat.le_refl _) (by omega)
    refine ⟨ps, h1, ?_, ?_⟩
    · intro j e hget hPj
      have := h3 j e hget (by omega)
      simpa using this
    · have hdiv : packets.length / cfg.batch_size ≤
          num_batches packets.length cfg.batch_size := by
        unfold num_batches
        exact Nat.div_le_div_right (by omega)
      have hmono : ((packets.length / cfg.batch_size - cfg.pre_buffer : Nat) : ℚ) ≤
          ((num_batches packets.length cfg.batch_size - cfg.pre_buffer : Nat) : ℚ) := by
        exact_mod_cast Nat.sub_le_sub_right hdiv _
      have hmul := mul_le_mul_of_nonneg_right hmono hT
      linarith

/-- C5 witness: the spec's example — 40 frames, batch size 10,
pre-buffer 2 batches, batch period one half second, instantaneous
sends. -/
theorem C5_pacing_witness :
    (1 ≤ (⟨10, 2, 1 / 2⟩ : StreamCfg).batch_size ∧
      1 ≤ (⟨10, 2, 1 / 2⟩ : StreamCfg).pre_buffer ∧
      (0 : ℚ) ≤ (⟨10, 2, 1 / 2⟩ : StreamCfg).period ∧
      (∀ n : Nat, (0 : ℚ) ≤ (fun _ => 0 : Nat → ℚ) n) ∧
      (⟨10, 2, 1 / 2⟩ : StreamCfg).pre_buffer ≤
        num_batches (List.replicate 40 ([0] : Frame)).length
          (⟨10, 2, 1 / 2⟩ : StreamCfg).batch_size) ∧
    ((∀ j e, j + 1 < (⟨10, 2, 1 / 2⟩ : StreamCfg).pre_buffer →
      (stream_from ⟨10, 2, 1 / 2⟩ (List.replicate 40 ([0] : Frame)) (fun _ => 0)
        (num_batches (List.replicate 40 ([0] : Frame)).length
          (⟨10, 2, 1 / 2⟩ : StreamCfg).batch_size) 0 0 none).events.get? j = some e →
      e.sleepAmt = 0) ∧
    ∃ ps : ℚ,
      (stream_from ⟨10, 2, 1 / 2⟩ (List.replicate 40 ([0] : Frame)) (fun _ => 0)
        (num_batches (List.replicate 40 ([0] : Frame)).length
          (⟨10, 2, 1 / 2⟩ : StreamCfg).batch_size) 0 0 none).pacingStart = some ps ∧
      (∀ j e,
        (stream_from ⟨10, 2, 1 / 2⟩ (List.replicate 40 ([0] : Frame)) (fun _ => 0)
          (num_batches (List.replicate 40 ([0] : Frame)).length
            (⟨10, 2, 1 / 2⟩ : StreamCfg).batch_size) 0 0 none).events.get? j = some e →
        (⟨10, 2, 1 / 2⟩ : StreamCfg).pre_buffer ≤ j →
        ps + ((j + 1 - (⟨10, 2, 1 / 2⟩ : StreamCfg).pre_buffer : Nat) : ℚ) *
          (⟨10, 2, 1 / 2⟩ : StreamCfg).period ≤ e.sendStart) ∧
      ps + (((List.replicate 40 ([0] : Frame)).length /
            (⟨10, 2, 1 / 2⟩ : StreamCfg).batch_size -
            (⟨10, 2, 1 / 2⟩ : StreamCfg).pre_buffer : Nat) : ℚ) *
          (⟨10, 2, 1 / 2⟩ : StreamCfg).period ≤
        (stream_from ⟨10, 2, 1 / 2⟩ (List.replicate 40 ([0] : Frame)) (fun _ => 0)
          (num_batches (List.replicate 40 ([0] : Frame)).length
            (⟨10, 2, 1 / 2⟩ : StreamCfg).batch_size) 0 0 none).finalTime) := by
  refine ⟨⟨by decide, by decide, by norm_num, fun _ => le_refl 0, by decide⟩, ?_⟩
  exact C5_pacing ⟨10, 2, 1 / 2⟩ (List.replicate 40 ([0] : Frame)) (fun _ => 0) 0
    (by decide) (by decide) (by norm_num) (fun _ => le_refl 0) (by decide)

end Hitony
